import Mathlib

/-!
Verification development for the QMasonryLayout repository (`masonry.py`).

The file shallowly embeds the two layout classes, `QMasonryBoxLayout`
(fixed column count) and `QMasonryFlowLayout` (fixed column width), as
pure Lean functions over explicit state.  Numeric values are modelled as
exact rationals (`ℚ`): Python mixes `int` and `float` arithmetic here and
the quantities involved stay exactly representable for the integer
configurations the layouts are used with; Python's floor division `//`
is modelled by `Int.floor` of the exact quotient and Python's `int(...)`
cast by truncation toward zero.

Host-widget model (the engine treats items as opaque Qt handles):
a widget carries a current size `(width, height)` and a recorded
geometry rectangle.  `item.sizeHint()` is read as the widget's current
size — the repository's widgets are fixed-size labels, for which Qt's
`QWidgetItem.sizeHint()` returns exactly the (fixed) current size, and
`setFixedSize` updates both the current size and the hint together.
`item.setGeometry(rect)` records the rectangle; it does not change the
modelled size, because a fixed-size widget's resize is clamped to its
fixed size (and in the only unconstrained path, `Ignore`, the rectangle
carries the widget's current size anyway).

Python faults (`raise ValueError`, `ZeroDivisionError`, `IndexError`)
are modelled with `Except String` / explicit fault results; mutations
performed before a fault are preserved in the returned state, matching
exception propagation in Python.
-/

/-- Geometry rectangle `QRect(x, y, w, h)` written to an item, kept as exact
rationals. -/
structure Rect where
  x : ℚ
  y : ℚ
  w : ℚ
  h : ℚ
deriving DecidableEq, Repr

/-- Margin insets `QMargins` as read from `self.contentsMargins()`. -/
structure Margins where
  left : ℚ
  top : ℚ
  right : ℚ
  bottom : ℚ
deriving DecidableEq, Repr

/-- Host widget handle: current size plus the geometry rectangle last written
by the engine (`none` before the first placement). -/
structure Widget where
  width : ℚ
  height : ℚ
  geometry : Option Rect := none
deriving DecidableEq, Repr

/-- Qt `setFixedSize(w, h)`: the widget's current size (and size hint) becomes
`(w, h)`. -/
def Widget.setFixedSize (wd : Widget) (nw nh : ℚ) : Widget :=
  { wd with width := nw, height := nh }

/-- Qt `setFixedWidth(w)`: only the width is forced. -/
def Widget.setFixedWidth (wd : Widget) (nw : ℚ) : Widget :=
  { wd with width := nw }

/-- Engine-side `item.setGeometry(rect)`: the rectangle is recorded; the
modelled size is unchanged (see header comment). -/
def Widget.setGeometry (wd : Widget) (r : Rect) : Widget :=
  { wd with geometry := some r }

/-- Size observation of a widget (used to state size-only congruence). -/
def Widget.size (wd : Widget) : ℚ × ℚ :=
  (wd.width, wd.height)

/-- Enum `HorizontalAdaptationStrategy`.  The extra `Invalid` constructor
models a Python attribute holding a value outside the declared enum set
(the fields are untyped at runtime), which the code answers with
`raise ValueError`. -/
inductive HorizontalAdaptationStrategy where
  | NoAdaption
  | Spacing
  | AutoZoom
  | Invalid
deriving DecidableEq, Repr

/-- Enum `VerticalExpansionStrategy`, with the same `Invalid` convention. -/
inductive VerticalExpansionStrategy where
  | HeightBalance
  | OrderInsert
  | RandomInsert
  | Invalid
deriving DecidableEq, Repr

/-- Enum `OverflowStrategy`, with the same `Invalid` convention. -/
inductive OverflowStrategy where
  | Ignore
  | AutoZoom
  | AutoCrop
  | Invalid
deriving DecidableEq, Repr

/-- Python floor division `a // b` on exact numbers (floor of the true
quotient; callers guard `b = 0`, which Python answers with
`ZeroDivisionError`). -/
def pyFloorDiv (a b : ℚ) : ℚ :=
  (⌊a / b⌋ : ℤ)

/-- Python `int(...)` applied to a number: truncation toward zero. -/
def ratTrunc (q : ℚ) : ℤ :=
  if 0 ≤ q then ⌊q⌋ else ⌈q⌉

/-- Python list index resolution: indices in `[0, n)` are used directly,
indices in `[-n, 0)` wrap from the end, anything else is an `IndexError`. -/
def pyIndex (n : ℕ) (i : ℤ) : Option ℕ :=
  if 0 ≤ i ∧ i < (n : ℤ) then some i.toNat
  else if -(n : ℤ) ≤ i ∧ i < 0 then some (i + n).toNat
  else none

/-- Python `xs[i]` read on a numeric list. -/
def pyGet (xs : List ℚ) (i : ℤ) : Except String ℚ :=
  match pyIndex xs.length i with
  | some k => .ok (xs.getD k 0)
  | none => .error "IndexError: list index out of range"

/-- Python `xs[i] = v` write on a numeric list. -/
def pySet (xs : List ℚ) (i : ℤ) (v : ℚ) : Except String (List ℚ) :=
  match pyIndex xs.length i with
  | some k => .ok (xs.set k v)
  | none => .error "IndexError: list index out of range"

namespace Masonry

/-- Method `_handleOverflow(itemWidget, itemHeight, itemWidth)` — textually
identical in `QMasonryBoxLayout` and `QMasonryFlowLayout`, so embedded once.
`columnWidth` is the value `self.columnWidth()` resolved earlier in the same
pass; `itemHeight`/`itemWidth` are the size-hint values captured by
`_doLayout` before this call.  Returns the possibly resized widget. -/
def handleOverflow (overflowStrategy : OverflowStrategy) (columnWidth : ℚ)
    (itemWidget : Widget) (itemHeight itemWidth : ℚ) : Except String Widget :=
  if itemWidget.width ≠ columnWidth then
    match overflowStrategy with
    | .AutoZoom =>
        if itemWidth = 0 then
          .error "ZeroDivisionError: integer division or modulo by zero"
        else
          .ok (itemWidget.setFixedSize columnWidth
            (pyFloorDiv (itemHeight * columnWidth) itemWidth))
    | .AutoCrop => .ok (itemWidget.setFixedWidth columnWidth)
    | .Ignore => .ok itemWidget
    | .Invalid => .error "Invalid overflow strategy"
  else
    .ok itemWidget

/-- The scan inside the `HeightBalance` branch of `_handleColumnSelection`:
`minColumnTotalHeight` is initialised to `columnTotalHeights[0]` and — as in
the source — never updated inside the loop; `targetColumnIndex` is overwritten
by every index whose height is strictly below that initial value. -/
def heightBalanceScan (h0 : ℚ) : List ℚ → ℕ → ℤ → ℤ
  | [], _, acc => acc
  | h :: t, i, acc => heightBalanceScan h0 t (i + 1) (if h < h0 then (i : ℤ) else acc)

/-- Method `_handleColumnSelection(itemIndex, columnTotalHeights)` — identical
in both classes.  `columnCount` is `self.columnCount()` resolved for the pass;
`randValue` is an injected oracle standing for `random.randint(0, cc - 1)`
(the real call draws uniformly from `[0, cc - 1]`; the draw is otherwise
unconstrained here). -/
def handleColumnSelection (verticalExpansionStrategy : VerticalExpansionStrategy)
    (columnCount : ℤ) (randValue : ℤ) (itemIndex : ℕ)
    (columnTotalHeights : List ℚ) : Except String ℤ :=
  match verticalExpansionStrategy with
  | .HeightBalance =>
      match columnTotalHeights with
      | [] => .error "IndexError: list index out of range"
      | h0 :: _ => .ok (heightBalanceScan h0 columnTotalHeights 0 0)
  | .OrderInsert =>
      if columnCount = 0 then
        .error "ZeroDivisionError: integer division or modulo by zero"
      else
        .ok (Int.fmod itemIndex columnCount)
  | .RandomInsert =>
      if columnCount ≤ 0 then
        .error "ValueError: empty range for randrange()"
      else
        .ok randValue
  | .Invalid => .error "Invalid vertical expansion strategy"

/-- Method `addItem(item)` — identical in both classes — acting on the
`(self._items, self._item_ratios)` pair.  The item is appended first; the
ratio `widget.height() / widget.width()` is computed afterwards, so a
zero-width widget raises `ZeroDivisionError` with the item already appended
and no ratio recorded.  The optional string is the raised fault. -/
def addItemLists (items : List Widget) (ratios : List ℚ) (item : Widget) :
    List Widget × List ℚ × Option String :=
  let items' := items ++ [item]
  if item.width = 0 then
    (items', ratios, some "ZeroDivisionError: division by zero")
  else
    (items', ratios ++ [item.height / item.width], none)

/-- Method `itemAt(index)` — identical in both classes: in-range indices
return the stored item, everything else returns `None`. -/
def itemAt (items : List Widget) (index : ℤ) : Option Widget :=
  if 0 ≤ index ∧ index < (items.length : ℤ) then
    items.get? index.toNat
  else
    none

/-- Outcome of one `_doLayout` call: either the returned `QSize`
`(rect.width(), max(columnTotalHeights))` together with the state after the
pass, or a raised fault together with the state at the moment the exception
propagated (mutations already performed are kept). -/
inductive PassOut (σ : Type) where
  | ok (st : σ) (size : ℚ × ℚ)
  | fault (msg : String) (st : σ)
deriving DecidableEq, Repr

/-- Result of the per-item portion of a pass: the widgets in order (processed
ones mutated, the rest untouched), the column heights, and the fault raised,
if any. -/
structure LoopOut where
  widgets : List Widget
  heights : List ℚ
  fault : Option String
deriving DecidableEq, Repr

/-- The `for itemIndex, (itemRatio, item) in enumerate(zip(...))` loop of
`_doLayout`, generic in the per-item step (the two classes differ only in the
`_handlePosition` they call).  A step returns either the updated widget (with
its geometry applied) and heights, or a fault message together with the
widget as mutated up to the fault; the loop then stops, leaving the remaining
widgets untouched. -/
def layoutLoop (step : ℕ → ℚ → Widget → List ℚ → (Widget × List ℚ) ⊕ (String × Widget)) :
    ℕ → List (ℚ × Widget) → List ℚ → LoopOut
  | _, [], heights => ⟨[], heights, none⟩
  | idx, (r, w) :: rest, heights =>
    match step idx r w heights with
    | .inl (w', heights') =>
      let out := layoutLoop step (idx + 1) rest heights'
      ⟨w' :: out.widgets, out.heights, out.fault⟩
    | .inr (msg, w') => ⟨w' :: rest.map Prod.snd, heights, some msg⟩

end Masonry

/-- State of a `QMasonryBoxLayout` (fixed column count; column width resolved
per pass).  The pre-first-pass `_columnWidth = None` is not modelled: every
pass overwrites it before any read, and all claims concern resolved widths. -/
structure QMasonryBoxLayout where
  horizontalAdaptationStrategy : HorizontalAdaptationStrategy
  verticalExpansionStrategy : VerticalExpansionStrategy
  overflowStrategy : OverflowStrategy
  columnCount : ℤ
  columnWidth : ℚ
  horizontalSpacing : ℚ
  verticalSpacing : ℚ
  contentsMargins : Margins
  items : List Widget
  itemRatios : List ℚ
deriving DecidableEq, Repr

/-- Method `QMasonryBoxLayout.calculateColumnWidth(rect, margin, spaceX)` as a
pure function of the values it reads; `_doLayout` stores the result in the
state.  A configured column count of zero makes the true division raise
`ZeroDivisionError`. -/
def QMasonryBoxLayout.calculateColumnWidth (rectWidth : ℚ) (margin : Margins)
    (spaceX : ℚ) (columnCount : ℤ) : Except String ℚ :=
  if columnCount = 0 then
    .error "ZeroDivisionError: division by zero"
  else
    .ok ((rectWidth - margin.left - margin.right - spaceX * ((columnCount : ℚ) - 1)) /
      (columnCount : ℚ))

/-- Method `QMasonryBoxLayout._handlePosition(...)`: the `Spacing` and
`NoAdaption` strategies share one branch, and every branch uses the resolved
`self.columnWidth()`.  Returns the rectangle handed back to `_doLayout`, the
updated heights, and the possibly resized widget. -/
def QMasonryBoxLayout.handlePosition (hAdapt : HorizontalAdaptationStrategy)
    (columnWidth : ℚ) (margin : Margins) (spaceX spaceY : ℚ)
    (targetColumnIndex : ℤ) (columnTotalHeights : List ℚ)
    (itemWidth itemHeight : ℚ) (itemWidget : Widget) (itemRatio : ℚ) :
    Except String (Rect × List ℚ × Widget) :=
  match hAdapt with
  | .Spacing | .NoAdaption => do
    let hT ← pyGet columnTotalHeights targetColumnIndex
    let x := margin.left + columnWidth * ((targetColumnIndex : ℚ) + 1/2) +
      spaceX * (targetColumnIndex : ℚ) - itemWidth / 2
    let y := margin.top + hT
    let heights' ← pySet columnTotalHeights targetColumnIndex (hT + (itemHeight + spaceY))
    .ok (⟨x, y, itemWidth, itemHeight⟩, heights', itemWidget)
  | .AutoZoom => do
    let hT ← pyGet columnTotalHeights targetColumnIndex
    let x := margin.left + columnWidth * ((targetColumnIndex : ℚ) + 1/2) +
      spaceX * (targetColumnIndex : ℚ) - itemWidth / 2
    let y := margin.top + hT
    let columnHeight := columnWidth * itemRatio
    let itemWidget' := itemWidget.setFixedSize columnWidth ((ratTrunc columnHeight : ℤ) : ℚ)
    let heights' ← pySet columnTotalHeights targetColumnIndex (hT + (columnHeight + spaceY))
    .ok (⟨x, y, itemWidth, itemHeight⟩, heights', itemWidget')
  | .Invalid => .error "Invalid horizontal adaptation strategy"

/-- One iteration of the `QMasonryBoxLayout._doLayout` loop body for the item
at `idx`: size hints are captured first, then `_handleOverflow`,
`_handleColumnSelection`, `_handlePosition` and `item.setGeometry` run in
order; a fault stops the item with the mutations made so far. -/
def QMasonryBoxLayout.layoutStep (st : QMasonryBoxLayout) (rand : ℕ → ℤ)
    (idx : ℕ) (itemRatio : ℚ) (item : Widget) (heights : List ℚ) :
    (Widget × List ℚ) ⊕ (String × Widget) :=
  let itemWidth := item.width
  let itemHeight := item.height
  match Masonry.handleOverflow st.overflowStrategy st.columnWidth item itemHeight itemWidth with
  | .error msg => .inr (msg, item)
  | .ok w1 =>
    match Masonry.handleColumnSelection st.verticalExpansionStrategy st.columnCount
        (rand idx) idx heights with
    | .error msg => .inr (msg, w1)
    | .ok target =>
      match QMasonryBoxLayout.handlePosition st.horizontalAdaptationStrategy st.columnWidth
          st.contentsMargins st.horizontalSpacing st.verticalSpacing target heights
          itemWidth itemHeight w1 itemRatio with
      | .error msg => .inr (msg, w1)
      | .ok (rect, heights', w2) => .inl (w2.setGeometry rect, heights')

/-- Method `QMasonryBoxLayout._doLayout(rect)`.  Python mutates widgets in
place and leaves `self._items` as a list object; the functional model rebuilds
the item list, appending unchanged any items beyond the zipped
`(ratio, item)` prefix. -/
def QMasonryBoxLayout.doLayout (st : QMasonryBoxLayout) (rectWidth : ℚ)
    (rand : ℕ → ℤ) : Masonry.PassOut QMasonryBoxLayout :=
  match QMasonryBoxLayout.calculateColumnWidth rectWidth st.contentsMargins
      st.horizontalSpacing st.columnCount with
  | .error msg => .fault msg st
  | .ok cw =>
    let st1 := { st with columnWidth := cw }
    let heights0 : List ℚ := List.replicate st1.columnCount.toNat 0
    let out := Masonry.layoutLoop (st1.layoutStep rand) 0 (st1.itemRatios.zip st1.items) heights0
    let st2 := { st1 with
      items := out.widgets ++ st1.items.drop (min st1.itemRatios.length st1.items.length) }
    match out.fault with
    | some msg => .fault msg st2
    | none =>
      match out.heights with
      | [] => .fault "ValueError: max() arg is an empty sequence" st2
      | h :: t => .ok st2 (rectWidth, t.foldl max h)

/-- Projection of a `_handlePosition` result onto the returned rectangle
(`none` when the call raised). -/
def Masonry.posRect : Except String (Rect × List ℚ × Widget) → Option Rect
  | .ok (r, _, _) => some r
  | .error _ => none

/-- Projection of a `_handlePosition` result onto the widget after the call
(`none` when the call raised). -/
def Masonry.posWidget : Except String (Rect × List ℚ × Widget) → Option Widget
  | .ok (_, _, w) => some w
  | .error _ => none

/-- Statement helper: the column width each valid flow `_handlePosition`
branch multiplies into the x-coordinate — the configured width for
`NoAdaption`, the recomputed `realColumnWidth` for `Spacing` and `AutoZoom`
(the `Invalid` value is never used under the theorems' hypotheses). -/
def Masonry.flowEffectiveWidth (hAdapt : HorizontalAdaptationStrategy)
    (columnWidth : ℚ) (columnCount : ℤ) (rectWidth l r spaceX : ℚ) : ℚ :=
  match hAdapt with
  | .NoAdaption | .Invalid => columnWidth
  | .Spacing | .AutoZoom =>
      (rectWidth - l - r - spaceX * ((columnCount : ℚ) - 1)) / (columnCount : ℚ)

/-- A sequence of `addItem` calls acting on the `(items, ratios)` pair; a
raised `ZeroDivisionError` propagates to the caller, who may keep calling on
the same layout, so the fold simply carries the mutated lists onward. -/
def Masonry.addAll : List Widget × List ℚ → List Widget → List Widget × List ℚ
  | p, [] => p
  | (items, ratios), w :: ws =>
    let out := Masonry.addItemLists items ratios w
    Masonry.addAll (out.1, out.2.1) ws

/-- State of a `QMasonryFlowLayout` (fixed column width; column count resolved
per pass).  The pre-first-pass `_columnCount = None` is not modelled: every
pass overwrites it before any read. -/
structure QMasonryFlowLayout where
  horizontalAdaptationStrategy : HorizontalAdaptationStrategy
  verticalExpansionStrategy : VerticalExpansionStrategy
  overflowStrategy : OverflowStrategy
  columnCount : ℤ
  columnWidth : ℚ
  horizontalSpacing : ℚ
  verticalSpacing : ℚ
  contentsMargins : Margins
  items : List Widget
  itemRatios : List ℚ
deriving DecidableEq, Repr

/-- Method `QMasonryFlowLayout.calculateColumnCount(rect, margin, spaceX)` as
a pure function; `_doLayout` stores the result.  The floor division raises
`ZeroDivisionError` when `columnWidth + spaceX = 0`. -/
def QMasonryFlowLayout.calculateColumnCount (rectWidth : ℚ) (margin : Margins)
    (spaceX : ℚ) (columnWidth : ℚ) : Except String ℤ :=
  if columnWidth + spaceX = 0 then
    .error "ZeroDivisionError: integer division or modulo by zero"
  else
    .ok (max 1 ⌊(rectWidth - margin.left - margin.right + spaceX) / (columnWidth + spaceX)⌋)

/-- Method `QMasonryFlowLayout._handlePosition(...)`: `NoAdaption` positions
with the configured `self.columnWidth()`, while `Spacing` and `AutoZoom`
recompute `realColumnWidth` from the region (a zero resolved column count
would raise `ZeroDivisionError` there first).  The flow `AutoZoom` branch
passes the unrounded `realColumnWidth` and `columnHeight` straight to
`setFixedSize`, with no `int(...)` cast. -/
def QMasonryFlowLayout.handlePosition (hAdapt : HorizontalAdaptationStrategy)
    (columnWidth : ℚ) (columnCount : ℤ) (rectWidth : ℚ) (margin : Margins)
    (spaceX spaceY : ℚ) (targetColumnIndex : ℤ) (columnTotalHeights : List ℚ)
    (itemWidth itemHeight : ℚ) (itemWidget : Widget) (itemRatio : ℚ) :
    Except String (Rect × List ℚ × Widget) :=
  match hAdapt with
  | .NoAdaption => do
    let hT ← pyGet columnTotalHeights targetColumnIndex
    let x := margin.left + columnWidth * ((targetColumnIndex : ℚ) + 1/2) +
      spaceX * (targetColumnIndex : ℚ) - itemWidth / 2
    let y := margin.top + hT
    let heights' ← pySet columnTotalHeights targetColumnIndex (hT + (itemHeight + spaceY))
    .ok (⟨x, y, itemWidth, itemHeight⟩, heights', itemWidget)
  | .Spacing =>
    if columnCount = 0 then
      .error "ZeroDivisionError: division by zero"
    else do
      let realColumnWidth := (rectWidth - margin.left - margin.right -
        spaceX * ((columnCount : ℚ) - 1)) / (columnCount : ℚ)
      let hT ← pyGet columnTotalHeights targetColumnIndex
      let x := margin.left + realColumnWidth * ((targetColumnIndex : ℚ) + 1/2) +
        spaceX * (targetColumnIndex : ℚ) - itemWidth / 2
      let y := margin.top + hT
      let heights' ← pySet columnTotalHeights targetColumnIndex (hT + (itemHeight + spaceY))
      .ok (⟨x, y, itemWidth, itemHeight⟩, heights', itemWidget)
  | .AutoZoom =>
    if columnCount = 0 then
      .error "ZeroDivisionError: division by zero"
    else do
      let realColumnWidth := (rectWidth - margin.left - margin.right -
        spaceX * ((columnCount : ℚ) - 1)) / (columnCount : ℚ)
      let hT ← pyGet columnTotalHeights targetColumnIndex
      let x := margin.left + realColumnWidth * ((targetColumnIndex : ℚ) + 1/2) +
        spaceX * (targetColumnIndex : ℚ) - itemWidth / 2
      let y := margin.top + hT
      let columnHeight := realColumnWidth * itemRatio
      let itemWidget' := itemWidget.setFixedSize realColumnWidth columnHeight
      let heights' ← pySet columnTotalHeights targetColumnIndex (hT + (columnHeight + spaceY))
      .ok (⟨x, y, itemWidth, itemHeight⟩, heights', itemWidget')
  | .Invalid => .error "Invalid horizontal adaptation strategy"

/-- One iteration of the `QMasonryFlowLayout._doLayout` loop body, analogous
to the box version but passing the region rectangle to `_handlePosition`. -/
def QMasonryFlowLayout.layoutStep (st : QMasonryFlowLayout) (rectWidth : ℚ)
    (rand : ℕ → ℤ) (idx : ℕ) (itemRatio : ℚ) (item : Widget) (heights : List ℚ) :
    (Widget × List ℚ) ⊕ (String × Widget) :=
  let itemWidth := item.width
  let itemHeight := item.height
  match Masonry.handleOverflow st.overflowStrategy st.columnWidth item itemHeight itemWidth with
  | .error msg => .inr (msg, item)
  | .ok w1 =>
    match Masonry.handleColumnSelection st.verticalExpansionStrategy st.columnCount
        (rand idx) idx heights with
    | .error msg => .inr (msg, w1)
    | .ok target =>
      match QMasonryFlowLayout.handlePosition st.horizontalAdaptationStrategy st.columnWidth
          st.columnCount rectWidth st.contentsMargins st.horizontalSpacing st.verticalSpacing
          target heights itemWidth itemHeight w1 itemRatio with
      | .error msg => .inr (msg, w1)
      | .ok (rect, heights', w2) => .inl (w2.setGeometry rect, heights')

/-- Method `QMasonryFlowLayout._doLayout(rect)`, mirroring the box version
with the column count resolved from the region width. -/
def QMasonryFlowLayout.doLayout (st : QMasonryFlowLayout) (rectWidth : ℚ)
    (rand : ℕ → ℤ) : Masonry.PassOut QMasonryFlowLayout :=
  match QMasonryFlowLayout.calculateColumnCount rectWidth st.contentsMargins
      st.horizontalSpacing st.columnWidth with
  | .error msg => .fault msg st
  | .ok cc =>
    let st1 := { st with columnCount := cc }
    let heights0 : List ℚ := List.replicate cc.toNat 0
    let out := Masonry.layoutLoop (st1.layoutStep rectWidth rand) 0
      (st1.itemRatios.zip st1.items) heights0
    let st2 := { st1 with
      items := out.widgets ++ st1.items.drop (min st1.itemRatios.length st1.items.length) }
    match out.fault with
    | some msg => .fault msg st2
    | none =>
      match out.heights with
      | [] => .fault "ValueError: max() arg is an empty sequence" st2
      | h :: t => .ok st2 (rectWidth, t.foldl max h)

/-!
Claim theorems.
-/

/-- C1.  The `HeightBalance` column selector does not return the index of the
strictly smallest accumulated height with first-minimum tie-breaking: on the
heights `[5, 3, 4]` it returns column 2 (height 4) although column 1 holds
the strict minimum 3.  The scan keeps comparing against
`columnTotalHeights[0]` because `minColumnTotalHeight` is never updated, so
the last index with a height below the first column's wins. -/
theorem heightBalance_selection_not_argmin :
    Masonry.handleColumnSelection VerticalExpansionStrategy.HeightBalance 3 0 0
      [5, 3, 4] = Except.ok 2 ∧
    ([(5 : ℚ), 3, 4].getD 1 0 = 3 ∧ [(5 : ℚ), 3, 4].getD 2 0 = 4 ∧ (3 : ℚ) < 4) := by
  refine ⟨rfl, rfl, rfl, by norm_num⟩

/-- C3.  `_handleOverflow` dispatches its coercion strategy exactly when the
widget's width differs from the resolved column width, decided by exact
equality: on exact equality nothing happens — not even the invalid-strategy
check — and on any inequality (however small) the configured strategy runs. -/
theorem handleOverflow_exact_width_gate
    (s : OverflowStrategy) (cw : ℚ) (w : Widget) (ih iw : ℚ) :
    (w.width = cw → Masonry.handleOverflow s cw w ih iw = .ok w) ∧
    (w.width ≠ cw →
      (s = .Ignore → Masonry.handleOverflow s cw w ih iw = .ok w) ∧
      (s = .AutoCrop → Masonry.handleOverflow s cw w ih iw = .ok (w.setFixedWidth cw)) ∧
      (s = .AutoZoom → iw ≠ 0 → Masonry.handleOverflow s cw w ih iw =
        .ok (w.setFixedSize cw (pyFloorDiv (ih * cw) iw))) ∧
      (s = .Invalid → Masonry.handleOverflow s cw w ih iw =
        .error "Invalid overflow strategy")) := by
  constructor
  · intro h
    simp [Masonry.handleOverflow, h]
  · intro hne
    refine ⟨?_, ?_, ?_, ?_⟩ <;> intro hs
    · subst hs; simp [Masonry.handleOverflow, hne]
    · subst hs; simp [Masonry.handleOverflow, hne]
    · subst hs; intro hiw; simp [Masonry.handleOverflow, hne, hiw]
    · subst hs; simp [Masonry.handleOverflow, hne]

/-- C3 witness.  A widget whose width exactly equals the column width passes
through untouched even under an invalid overflow strategy, while a
near-equal width (94 vs 94.1) still triggers the coercion. -/
theorem handleOverflow_exact_width_gate_witness :
    Masonry.handleOverflow OverflowStrategy.Invalid 200 ⟨200, 100, none⟩ 100 200 =
      .ok ⟨200, 100, none⟩ ∧
    Masonry.handleOverflow OverflowStrategy.AutoCrop (941/10) ⟨94, 50, none⟩ 50 94 =
      .ok (Widget.setFixedWidth ⟨94, 50, none⟩ (941/10)) := by
  constructor
  · exact (handleOverflow_exact_width_gate .Invalid 200 ⟨200, 100, none⟩ 100 200).1 rfl
  · exact ((handleOverflow_exact_width_gate .AutoCrop (941/10) ⟨94, 50, none⟩ 50
      94).2 (by norm_num [Widget.width])).2.1 rfl

/-- C6.  Under `AutoZoom`, an item whose width differs from the resolved
column width gets its fixed size set to exactly `(columnWidth, trunc
(naturalHeight * columnWidth / naturalWidth))`; for the positive sizes items
carry, Python's floor division agrees with truncation toward zero. -/
theorem autoZoom_overflow_truncating_rescale
    (cw : ℚ) (w : Widget) (ih iw : ℚ)
    (hne : w.width ≠ cw) (hiw : 0 < iw) (hih : 0 ≤ ih) (hcw : 0 ≤ cw) :
    Masonry.handleOverflow OverflowStrategy.AutoZoom cw w ih iw =
      .ok (w.setFixedSize cw ((ratTrunc (ih * cw / iw) : ℤ) : ℚ)) := by
  have hiw' : iw ≠ 0 := ne_of_gt hiw
  have hnn : 0 ≤ ih * cw / iw := by positivity
  simp [Masonry.handleOverflow, hne, hiw', pyFloorDiv, ratTrunc, if_pos hnn]

/-- C6 witness.  A 100×33 item against column width 150 is rescaled to
`(150, 49)` (the exact quotient 49.5 truncates to 49). -/
theorem autoZoom_overflow_truncating_rescale_witness :
    Masonry.handleOverflow OverflowStrategy.AutoZoom 150 ⟨100, 33, none⟩ 33 100 =
      .ok ⟨150, 49, none⟩ := by
  have h := autoZoom_overflow_truncating_rescale 150 ⟨100, 33, none⟩ 33 100
    (by norm_num [Widget.width]) (by norm_num) (by norm_num) (by norm_num)
  rw [h]
  norm_num [Widget.setFixedSize, ratTrunc]

/-- C7.  The flow engine's region resolver computes
`max(1, floor((regionWidth - leftMargin - rightMargin + spacing) /
(columnWidth + spacing)))` and therefore always yields at least one column
for any positive configured column width and non-negative spacing. -/
theorem calculateColumnCount_at_least_one_column
    (rectWidth l t r b spaceX columnWidth : ℚ)
    (hcw : 0 < columnWidth) (hsp : 0 ≤ spaceX) :
    QMasonryFlowLayout.calculateColumnCount rectWidth ⟨l, t, r, b⟩ spaceX columnWidth =
      .ok (max 1 ⌊(rectWidth - l - r + spaceX) / (columnWidth + spaceX)⌋) ∧
    1 ≤ max 1 ⌊(rectWidth - l - r + spaceX) / (columnWidth + spaceX)⌋ := by
  have hne : columnWidth + spaceX ≠ 0 := by positivity
  constructor
  · simp [QMasonryFlowLayout.calculateColumnCount, hne]
  · exact le_max_left _ _

/-- C7 witness.  With column width 150, spacing 16, region width 640 and zero
margins the resolver yields `max(1, floor(656/166)) = 3`. -/
theorem calculateColumnCount_at_least_one_column_witness :
    QMasonryFlowLayout.calculateColumnCount 640 ⟨0, 0, 0, 0⟩ 16 150 = .ok 3 := by
  rw [(calculateColumnCount_at_least_one_column 640 0 0 0 0 16 150
    (by norm_num) (by norm_num)).1]
  norm_num

/-- C8 counterexample.  Adding an item of natural width −100 does not fault:
the item is appended and the (negative) ratio −1 is cached, refuting the
claim that any non-positive natural width faults. -/
theorem addItem_negative_width_no_fault :
    Masonry.addItemLists [] [] ⟨-100, 100, none⟩ =
      ([⟨-100, 100, none⟩], [-1], none) := by
  norm_num [Masonry.addItemLists, Widget.width, Widget.height]

/-- C8 (amended).  `addItem` appends the item and caches the ratio
`naturalHeight / naturalWidth`; it faults exactly when the natural width is
zero (`ZeroDivisionError`), and because the append precedes the ratio
computation, a faulting call still leaves the item appended without a cached
ratio. -/
theorem addItem_faults_iff_zero_width
    (items : List Widget) (ratios : List ℚ) (w : Widget) :
    (w.width = 0 → Masonry.addItemLists items ratios w =
      (items ++ [w], ratios, some "ZeroDivisionError: division by zero")) ∧
    (w.width ≠ 0 → Masonry.addItemLists items ratios w =
      (items ++ [w], ratios ++ [w.height / w.width], none)) := by
  constructor
  · intro h
    simp [Masonry.addItemLists, h]
  · intro h
    simp [Masonry.addItemLists, h]

/-- C8 witness.  A 3×6 item is appended with cached ratio 2 and no fault;
a 0×7 item faults with the item already appended and no ratio cached. -/
theorem addItem_faults_iff_zero_width_witness :
    Masonry.addItemLists [] [] ⟨3, 6, none⟩ = ([⟨3, 6, none⟩], [2], none) ∧
    Masonry.addItemLists [] [] ⟨0, 7, none⟩ =
      ([⟨0, 7, none⟩], [], some "ZeroDivisionError: division by zero") := by
  constructor
  · have h := (addItem_faults_iff_zero_width [] [] ⟨3, 6, none⟩).2
      (by norm_num [Widget.width])
    rw [h]
    norm_num [Widget.width, Widget.height]
  · have h := (addItem_faults_iff_zero_width [] [] ⟨0, 7, none⟩).1 rfl
    simpa using h

/-- C9.  `itemAt` is bounds-checked: any index outside `[0, count)` yields
`none` without raising, and any in-range index yields the stored item. -/
theorem itemAt_bounds_checked (items : List Widget) (i : ℤ) :
    (¬ (0 ≤ i ∧ i < (items.length : ℤ)) → Masonry.itemAt items i = none) ∧
    (∀ x, 0 ≤ i → i < (items.length : ℤ) → items.get? i.toNat = some x →
      Masonry.itemAt items i = some x) := by
  constructor
  · intro h
    simp only [Masonry.itemAt, if_neg h]
  · intro x h0 h1 hx
    simp only [Masonry.itemAt, if_pos (And.intro h0 h1), hx]

/-- C9 witness.  On a one-item list, index 5 (and −1) return `none` while
index 0 returns the stored item. -/
theorem itemAt_bounds_checked_witness :
    Masonry.itemAt [⟨10, 20, none⟩] 5 = none ∧
    Masonry.itemAt [⟨10, 20, none⟩] (-1) = none ∧
    Masonry.itemAt [⟨10, 20, none⟩] 0 = some ⟨10, 20, none⟩ := by
  refine ⟨(itemAt_bounds_checked [⟨10, 20, none⟩] 5).1 (by decide),
    (itemAt_bounds_checked [⟨10, 20, none⟩] (-1)).1 (by decide),
    (itemAt_bounds_checked [⟨10, 20, none⟩] 0).2 ⟨10, 20, none⟩ (by decide) (by decide) rfl⟩

/-- C2 counterexample.  A flow `AutoZoom` placement of a 100×50 item into a
200-wide column returns the rectangle `(50, 0, 100, 50)` — carrying the
natural dimensions — while the same call rescales the widget to 200×100:
the returned rectangle does not use the just-updated item dimensions. -/
theorem handlePosition_rect_keeps_natural_size :
    Masonry.posRect (QMasonryFlowLayout.handlePosition HorizontalAdaptationStrategy.AutoZoom
        200 1 200 ⟨0, 0, 0, 0⟩ 0 0 0 [0] 100 50 ⟨100, 50, none⟩ (1/2)) =
      some ⟨50, 0, 100, 50⟩ ∧
    Masonry.posWidget (QMasonryFlowLayout.handlePosition HorizontalAdaptationStrategy.AutoZoom
        200 1 200 ⟨0, 0, 0, 0⟩ 0 0 0 [0] 100 50 ⟨100, 50, none⟩ (1/2)) =
      some ⟨200, 100, none⟩ ∧
    ¬ ((100 : ℚ) = 200 ∧ (50 : ℚ) = 100) := by
  refine ⟨?_, ?_, by norm_num⟩ <;>
    norm_num [QMasonryFlowLayout.handlePosition, pyGet, pySet, pyIndex,
      Widget.setFixedSize, Masonry.posRect, Masonry.posWidget, Except.instMonad, Except.bind,
      Margins.left, Margins.top, Margins.right]

/-- C2 (amended).  Every valid `_handlePosition` branch of either engine
returns the rectangle with `x = leftMargin + w*(targetColumn + 0.5) +
spacing*targetColumn - itemWidth/2` (with `w` the branch's effective column
width) and `y = topMargin + columnHeights[targetColumn]`, and with width and
height equal to the natural item dimensions passed in — captured before the
call and not updated by any `AutoZoom` rescale performed within it. -/
theorem handlePosition_rect_formula :
    (∀ (hA : HorizontalAdaptationStrategy) (cw : ℚ) (cc : ℤ)
        (rectW l t r b sx sy : ℚ) (tgt : ℤ) (heights : List ℚ)
        (iw ih : ℚ) (w : Widget) (ratio : ℚ),
      hA ≠ .Invalid → cc ≠ 0 → 0 ≤ tgt → tgt < (heights.length : ℤ) →
      Masonry.posRect (QMasonryFlowLayout.handlePosition hA cw cc rectW ⟨l, t, r, b⟩
          sx sy tgt heights iw ih w ratio) =
        some ⟨l + Masonry.flowEffectiveWidth hA cw cc rectW l r sx * ((tgt : ℚ) + 1/2) +
          sx * (tgt : ℚ) - iw / 2, t + heights.getD tgt.toNat 0, iw, ih⟩) ∧
    (∀ (hA : HorizontalAdaptationStrategy) (cw l t r b sx sy : ℚ) (tgt : ℤ)
        (heights : List ℚ) (iw ih : ℚ) (w : Widget) (ratio : ℚ),
      hA ≠ .Invalid → 0 ≤ tgt → tgt < (heights.length : ℤ) →
      Masonry.posRect (QMasonryBoxLayout.handlePosition hA cw ⟨l, t, r, b⟩
          sx sy tgt heights iw ih w ratio) =
        some ⟨l + cw * ((tgt : ℚ) + 1/2) + sx * (tgt : ℚ) - iw / 2,
          t + heights.getD tgt.toNat 0, iw, ih⟩) := by
  constructor
  · intro hA cw cc rectW l t r b sx sy tgt heights iw ih w ratio hval hcc h0 h1
    have hidx : pyIndex heights.length tgt = some tgt.toNat := by
      simp [pyIndex, if_pos (And.intro h0 h1)]
    cases hA with
    | Invalid => exact absurd rfl hval
    | NoAdaption =>
      simp [QMasonryFlowLayout.handlePosition, pyGet, pySet, hidx,
        Masonry.posRect, Masonry.flowEffectiveWidth, Except.instMonad, Except.bind]
    | Spacing =>
      simp [QMasonryFlowLayout.handlePosition, pyGet, pySet, hidx, hcc,
        Masonry.posRect, Masonry.flowEffectiveWidth, Except.instMonad, Except.bind]
    | AutoZoom =>
      simp [QMasonryFlowLayout.handlePosition, pyGet, pySet, hidx, hcc,
        Masonry.posRect, Masonry.flowEffectiveWidth, Except.instMonad, Except.bind]
  · intro hA cw l t r b sx sy tgt heights iw ih w ratio hval h0 h1
    have hidx : pyIndex heights.length tgt = some tgt.toNat := by
      simp [pyIndex, if_pos (And.intro h0 h1)]
    cases hA with
    | Invalid => exact absurd rfl hval
    | NoAdaption =>
      simp [QMasonryBoxLayout.handlePosition, pyGet, pySet, hidx,
        Masonry.posRect, Except.instMonad, Except.bind]
    | Spacing =>
      simp [QMasonryBoxLayout.handlePosition, pyGet, pySet, hidx,
        Masonry.posRect, Except.instMonad, Except.bind]
    | AutoZoom =>
      simp [QMasonryBoxLayout.handlePosition, pyGet, pySet, hidx,
        Masonry.posRect, Except.instMonad, Except.bind]

/-- C2 witness.  A flow `NoAdaption` placement of a 100×50 item into column 0
of a 200-wide single-column region returns the rectangle `(50, 0, 100, 50)`. -/
theorem handlePosition_rect_formula_witness :
    Masonry.posRect (QMasonryFlowLayout.handlePosition HorizontalAdaptationStrategy.NoAdaption
        200 1 200 ⟨0, 0, 0, 0⟩ 0 0 0 [0] 100 50 ⟨100, 50, none⟩ (1/2)) =
      some ⟨50, 0, 100, 50⟩ := by
  have h := handlePosition_rect_formula.1 .NoAdaption 200 1 200 0 0 0 0 0 0 0 [0]
    100 50 ⟨100, 50, none⟩ (1/2) (by simp) (by norm_num) (by norm_num) (by norm_num)
  rw [h]
  norm_num [Masonry.flowEffectiveWidth]

/-- Helper: a run of fault-free `addItem` calls appends the widgets and their
insertion-time ratios. -/
theorem Masonry.addAll_eq (ws : List Widget) :
    ∀ (items : List Widget) (ratios : List ℚ), (∀ w ∈ ws, w.width ≠ 0) →
      Masonry.addAll (items, ratios) ws =
        (items ++ ws, ratios ++ ws.map fun w => w.height / w.width) := by
  induction ws with
  | nil => intro items ratios _; simp [Masonry.addAll]
  | cons w ws ih =>
    intro items ratios h
    have hw : w.width ≠ 0 := h w (List.mem_cons_self w ws)
    have hrest : ∀ v ∈ ws, v.width ≠ 0 := fun v hv => h v (List.mem_cons_of_mem w hv)
    simp only [Masonry.addAll, Masonry.addItemLists, if_neg hw,
      ih (items ++ [w]) (ratios ++ [w.height / w.width]) hrest,
      List.append_assoc, List.singleton_append, List.map_cons]

/-- Helper: zipping a mapped list with the original pairs each element with
its own image. -/
theorem Masonry.zip_map_self {α β : Type} (f : α → β) :
    ∀ l : List α, (l.map f).zip l = l.map fun x => (f x, x) := by
  intro l
  induction l with
  | nil => rfl
  | cons a l ih => simp [List.zip_cons_cons, ih]

/-- C10 counterexample.  After adding a 100×100 widget and then a zero-width
widget, the item list has length 2 but the ratio list has length 1: the
faulting `addItem` appended its item before the ratio computation raised, so
the two lists are not equal in length after this sequence of calls. -/
theorem addItem_fault_breaks_length_invariant :
    (Masonry.addAll ([], []) [⟨100, 100, none⟩, ⟨0, 50, none⟩]).1.length = 2 ∧
    (Masonry.addAll ([], []) [⟨100, 100, none⟩, ⟨0, 50, none⟩]).2.length = 1 := by
  constructor <;>
    norm_num [Masonry.addAll, Masonry.addItemLists, Widget.width]

/-- C10 (amended).  After any sequence of fault-free `addItem` calls (each
added widget has nonzero natural width) starting from a fresh layout, the
item and ratio lists have equal length, the i-th cached ratio is the ratio
computed from the i-th item at its insertion, and the positional zip the
layout pass iterates over pairs every item with exactly its own
insertion-time ratio. -/
theorem addItem_ratio_pairing_invariant (ws : List Widget)
    (h : ∀ w ∈ ws, w.width ≠ 0) :
    (Masonry.addAll ([], []) ws).1 = ws ∧
    (Masonry.addAll ([], []) ws).2 = (ws.map fun w => w.height / w.width) ∧
    (Masonry.addAll ([], []) ws).2.length = (Masonry.addAll ([], []) ws).1.length ∧
    (Masonry.addAll ([], []) ws).2.zip (Masonry.addAll ([], []) ws).1 =
      ws.map fun w => (w.height / w.width, w) := by
  have he := Masonry.addAll_eq ws [] [] h
  simp only [List.nil_append] at he
  rw [he]
  refine ⟨rfl, rfl, by simp, Masonry.zip_map_self _ ws⟩

/-- C10 witness.  Adding 100×50 and 200×100 widgets leaves the lists paired
as `[(1/2, first), (1/2, second)]`. -/
theorem addItem_ratio_pairing_invariant_witness :
    (Masonry.addAll ([], []) [⟨100, 50, none⟩, ⟨200, 100, none⟩]).2.zip
      (Masonry.addAll ([], []) [⟨100, 50, none⟩, ⟨200, 100, none⟩]).1 =
      [(1/2, ⟨100, 50, none⟩), (1/2, ⟨200, 100, none⟩)] := by
  have h := (addItem_ratio_pairing_invariant [⟨100, 50, none⟩, ⟨200, 100, none⟩]
    (by intro w hw; simp only [List.mem_cons, List.not_mem_nil, or_false] at hw;
        rcases hw with h1 | h1 <;> subst h1 <;> norm_num [Widget.width])).2.2.2
  rw [h]
  norm_num [Widget.width, Widget.height]

/-- Helper: the widgets of a zipped prefix followed by the dropped remainder
reassemble the original widget list. -/
theorem Masonry.zip_snd_append_drop {α β : Type} :
    ∀ (a : List α) (b : List β),
      ((a.zip b).map Prod.snd) ++ b.drop (min a.length b.length) = b := by
  intro a
  induction a with
  | nil => intro b; simp
  | cons x a ih =>
    intro b
    cases b with
    | nil => simp
    | cons y b =>
      simp only [List.zip_cons_cons, List.map_cons, List.length_cons,
        Nat.succ_min_succ, List.drop_succ_cons, List.cons_append, ih]

/-- Helper: a successful `_handleOverflow` never touches the widget's
geometry. -/
theorem Masonry.handleOverflow_ok_geometry
    (s : OverflowStrategy) (cw : ℚ) (w w1 : Widget) (ih iw : ℚ)
    (h : Masonry.handleOverflow s cw w ih iw = .ok w1) :
    w1.geometry = w.geometry := by
  by_cases hne : w.width = cw
  · simp [Masonry.handleOverflow, hne] at h
    subst h; rfl
  · cases s <;>
      simp [Masonry.handleOverflow, hne] at h
    · subst h; rfl
    · by_cases hiw : iw = 0
      · simp [hiw] at h
      · simp [hiw] at h
        subst h; rfl
    · subst h; rfl

/-- C4 counterexample.  A flow pass whose `overflowStrategy` holds an invalid
value completes normally — no abort, the item's geometry is written — because
the single item's width exactly equals the column width, so the overflow
dispatch (the only consumer of the invalid field) is skipped. -/
theorem invalid_overflow_strategy_pass_completes :
    QMasonryFlowLayout.doLayout
      { horizontalAdaptationStrategy := .NoAdaption
        verticalExpansionStrategy := .HeightBalance
        overflowStrategy := .Invalid
        columnCount := 0
        columnWidth := 200
        horizontalSpacing := 0
        verticalSpacing := 0
        contentsMargins := ⟨0, 0, 0, 0⟩
        items := [⟨200, 100, none⟩]
        itemRatios := [1/2] } 200 (fun _ => 0) =
    Masonry.PassOut.ok
      { horizontalAdaptationStrategy := .NoAdaption
        verticalExpansionStrategy := .HeightBalance
        overflowStrategy := .Invalid
        columnCount := 1
        columnWidth := 200
        horizontalSpacing := 0
        verticalSpacing := 0
        contentsMargins := ⟨0, 0, 0, 0⟩
        items := [⟨200, 100, some ⟨0, 0, 200, 100⟩⟩]
        itemRatios := [1/2] } (200, 100) := by
  norm_num [QMasonryFlowLayout.doLayout, QMasonryFlowLayout.calculateColumnCount,
    QMasonryFlowLayout.layoutStep, QMasonryFlowLayout.handlePosition,
    Masonry.layoutLoop, Masonry.handleOverflow, Masonry.handleColumnSelection,
    Masonry.heightBalanceScan, pyGet, pySet, pyIndex, Widget.setGeometry,
    Widget.setFixedSize, Except.instMonad, Except.bind, List.zip_cons_cons]

/-- C4 (amended).  A pass aborts with the invalid-configuration error exactly
when it dispatches on the invalid field.  The vertical-expansion and
horizontal-adaptation strategies are dispatched for every item, so a
non-empty pass with either invalid faults at its very first item — with an
invalid vertical-expansion strategy right after that item's overflow
handling, and with an invalid horizontal-adaptation strategy as soon as that
item's overflow handling and column selection have gone through — before the
item's geometry (or any later item) is touched: the fault state keeps all
items after the first untouched and the first item carries only its overflow
mutation with its geometry unchanged.  (Stated for each engine and each of
the two always-dispatched fields; the counterexample shows passes that never
dispatch the invalid overflow field complete normally.) -/
theorem invalid_strategy_abort_on_dispatch :
    (∀ (st : QMasonryFlowLayout) (rectWidth : ℚ) (rand : ℕ → ℤ)
        (w0 w1 : Widget) (rest : List Widget) (r0 : ℚ) (rrest : List ℚ),
      st.verticalExpansionStrategy = .Invalid →
      st.items = w0 :: rest →
      st.itemRatios = r0 :: rrest →
      st.columnWidth + st.horizontalSpacing ≠ 0 →
      Masonry.handleOverflow st.overflowStrategy st.columnWidth w0 w0.height w0.width
        = .ok w1 →
      QMasonryFlowLayout.doLayout st rectWidth rand =
        .fault "Invalid vertical expansion strategy"
          { st with
            columnCount := max 1 ⌊(rectWidth - st.contentsMargins.left -
              st.contentsMargins.right + st.horizontalSpacing) /
              (st.columnWidth + st.horizontalSpacing)⌋,
            items := w1 :: rest } ∧
      w1.geometry = w0.geometry) ∧
    (∀ (st : QMasonryBoxLayout) (rectWidth : ℚ) (rand : ℕ → ℤ)
        (w0 w1 : Widget) (rest : List Widget) (r0 : ℚ) (rrest : List ℚ),
      st.verticalExpansionStrategy = .Invalid →
      st.items = w0 :: rest →
      st.itemRatios = r0 :: rrest →
      st.columnCount ≠ 0 →
      Masonry.handleOverflow st.overflowStrategy
        ((rectWidth - st.contentsMargins.left - st.contentsMargins.right -
          st.horizontalSpacing * ((st.columnCount : ℚ) - 1)) / (st.columnCount : ℚ))
        w0 w0.height w0.width = .ok w1 →
      QMasonryBoxLayout.doLayout st rectWidth rand =
        .fault "Invalid vertical expansion strategy"
          { st with
            columnWidth := (rectWidth - st.contentsMargins.left -
              st.contentsMargins.right - st.horizontalSpacing *
              ((st.columnCount : ℚ) - 1)) / (st.columnCount : ℚ),
            items := w1 :: rest } ∧
      w1.geometry = w0.geometry) ∧
    (∀ (st : QMasonryFlowLayout) (rectWidth : ℚ) (rand : ℕ → ℤ)
        (w0 w1 : Widget) (rest : List Widget) (r0 : ℚ) (rrest : List ℚ)
        (cc tgt : ℤ),
      st.horizontalAdaptationStrategy = .Invalid →
      st.items = w0 :: rest →
      st.itemRatios = r0 :: rrest →
      QMasonryFlowLayout.calculateColumnCount rectWidth st.contentsMargins
        st.horizontalSpacing st.columnWidth = .ok cc →
      Masonry.handleOverflow st.overflowStrategy st.columnWidth w0 w0.height w0.width
        = .ok w1 →
      Masonry.handleColumnSelection st.verticalExpansionStrategy cc (rand 0) 0
        (List.replicate cc.toNat 0) = .ok tgt →
      QMasonryFlowLayout.doLayout st rectWidth rand =
        .fault "Invalid horizontal adaptation strategy"
          { st with columnCount := cc, items := w1 :: rest } ∧
      w1.geometry = w0.geometry) ∧
    (∀ (st : QMasonryBoxLayout) (rectWidth : ℚ) (rand : ℕ → ℤ)
        (w0 w1 : Widget) (rest : List Widget) (r0 : ℚ) (rrest : List ℚ)
        (cw : ℚ) (tgt : ℤ),
      st.horizontalAdaptationStrategy = .Invalid →
      st.items = w0 :: rest →
      st.itemRatios = r0 :: rrest →
      QMasonryBoxLayout.calculateColumnWidth rectWidth st.contentsMargins
        st.horizontalSpacing st.columnCount = .ok cw →
      Masonry.handleOverflow st.overflowStrategy cw w0 w0.height w0.width = .ok w1 →
      Masonry.handleColumnSelection st.verticalExpansionStrategy st.columnCount
        (rand 0) 0 (List.replicate st.columnCount.toNat 0) = .ok tgt →
      QMasonryBoxLayout.doLayout st rectWidth rand =
        .fault "Invalid horizontal adaptation strategy"
          { st with columnWidth := cw, items := w1 :: rest } ∧
      w1.geometry = w0.geometry) := by
  refine ⟨?_, ?_, ?_, ?_⟩
  · intro st rectWidth rand w0 w1 rest r0 rrest hvE hitems hratios hden hov
    refine ⟨?_, Masonry.handleOverflow_ok_geometry _ _ _ _ _ _ hov⟩
    simp only [QMasonryFlowLayout.doLayout, QMasonryFlowLayout.calculateColumnCount,
      if_neg hden, hitems, hratios, List.zip_cons_cons, Masonry.layoutLoop,
      QMasonryFlowLayout.layoutStep, hov, hvE, Masonry.handleColumnSelection,
      List.length_cons, Nat.succ_min_succ, List.drop_succ_cons, List.cons_append,
      Masonry.zip_snd_append_drop]
  · intro st rectWidth rand w0 w1 rest r0 rrest hvE hitems hratios hcc hov
    refine ⟨?_, Masonry.handleOverflow_ok_geometry _ _ _ _ _ _ hov⟩
    simp only [QMasonryBoxLayout.doLayout, QMasonryBoxLayout.calculateColumnWidth,
      if_neg hcc, hitems, hratios, List.zip_cons_cons, Masonry.layoutLoop,
      QMasonryBoxLayout.layoutStep, hov, hvE, Masonry.handleColumnSelection,
      List.length_cons, Nat.succ_min_succ, List.drop_succ_cons, List.cons_append,
      Masonry.zip_snd_append_drop]
  · intro st rectWidth rand w0 w1 rest r0 rrest cc tgt hhA hitems hratios hcalc hov hsel
    refine ⟨?_, Masonry.handleOverflow_ok_geometry _ _ _ _ _ _ hov⟩
    simp only [QMasonryFlowLayout.doLayout, hcalc, hitems, hratios, List.zip_cons_cons,
      Masonry.layoutLoop, QMasonryFlowLayout.layoutStep, hov, hsel, hhA,
      QMasonryFlowLayout.handlePosition, List.length_cons, Nat.succ_min_succ,
      List.drop_succ_cons, List.cons_append, Masonry.zip_snd_append_drop]
  · intro st rectWidth rand w0 w1 rest r0 rrest cw tgt hhA hitems hratios hcalc hov hsel
    refine ⟨?_, Masonry.handleOverflow_ok_geometry _ _ _ _ _ _ hov⟩
    simp only [QMasonryBoxLayout.doLayout, hcalc, hitems, hratios, List.zip_cons_cons,
      Masonry.layoutLoop, QMasonryBoxLayout.layoutStep, hov, hsel, hhA,
      QMasonryBoxLayout.handlePosition, List.length_cons, Nat.succ_min_succ,
      List.drop_succ_cons, List.cons_append, Masonry.zip_snd_append_drop]

/-- C4 witness.  A concrete flow pass with an invalid vertical-expansion
strategy and one 100×50 item under an `Ignore` overflow policy aborts with
the invalid-configuration fault, the item keeping its size and (absent)
geometry; the same setup with a valid vertical-expansion strategy but an
invalid horizontal-adaptation strategy aborts with that fault instead. -/
theorem invalid_strategy_abort_on_dispatch_witness :
    QMasonryFlowLayout.doLayout
      { horizontalAdaptationStrategy := .NoAdaption
        verticalExpansionStrategy := .Invalid
        overflowStrategy := .Ignore
        columnCount := 0
        columnWidth := 200
        horizontalSpacing := 0
        verticalSpacing := 0
        contentsMargins := ⟨0, 0, 0, 0⟩
        items := [⟨100, 50, none⟩]
        itemRatios := [1/2] } 200 (fun _ => 0) =
    Masonry.PassOut.fault "Invalid vertical expansion strategy"
      { horizontalAdaptationStrategy := .NoAdaption
        verticalExpansionStrategy := .Invalid
        overflowStrategy := .Ignore
        columnCount := 1
        columnWidth := 200
        horizontalSpacing := 0
        verticalSpacing := 0
        contentsMargins := ⟨0, 0, 0, 0⟩
        items := [⟨100, 50, none⟩]
        itemRatios := [1/2] } ∧
    QMasonryFlowLayout.doLayout
      { horizontalAdaptationStrategy := .Invalid
        verticalExpansionStrategy := .HeightBalance
        overflowStrategy := .Ignore
        columnCount := 0
        columnWidth := 200
        horizontalSpacing := 0
        verticalSpacing := 0
        contentsMargins := ⟨0, 0, 0, 0⟩
        items := [⟨100, 50, none⟩]
        itemRatios := [1/2] } 200 (fun _ => 0) =
    Masonry.PassOut.fault "Invalid horizontal adaptation strategy"
      { horizontalAdaptationStrategy := .Invalid
        verticalExpansionStrategy := .HeightBalance
        overflowStrategy := .Ignore
        columnCount := 1
        columnWidth := 200
        horizontalSpacing := 0
        verticalSpacing := 0
        contentsMargins := ⟨0, 0, 0, 0⟩
        items := [⟨100, 50, none⟩]
        itemRatios := [1/2] } := by
  constructor
  · have h := (invalid_strategy_abort_on_dispatch.1
      { horizontalAdaptationStrategy := .NoAdaption
        verticalExpansionStrategy := .Invalid
        overflowStrategy := .Ignore
        columnCount := 0
        columnWidth := 200
        horizontalSpacing := 0
        verticalSpacing := 0
        contentsMargins := ⟨0, 0, 0, 0⟩
        items := [⟨100, 50, none⟩]
        itemRatios := [1/2] } 200 (fun _ => 0) ⟨100, 50, none⟩ ⟨100, 50, none⟩
      [] (1/2) [] rfl rfl rfl (by norm_num)
      (by norm_num [Masonry.handleOverflow, Widget.width])).1
    rw [h]
    norm_num
  · have h := (invalid_strategy_abort_on_dispatch.2.2.1
      { horizontalAdaptationStrategy := .Invalid
        verticalExpansionStrategy := .HeightBalance
        overflowStrategy := .Ignore
        columnCount := 0
        columnWidth := 200
        horizontalSpacing := 0
        verticalSpacing := 0
        contentsMargins := ⟨0, 0, 0, 0⟩
        items := [⟨100, 50, none⟩]
        itemRatios := [1/2] } 200 (fun _ => 0) ⟨100, 50, none⟩ ⟨100, 50, none⟩
      [] (1/2) [] 1 0 rfl rfl rfl
      (by norm_num [QMasonryFlowLayout.calculateColumnCount])
      (by norm_num [Masonry.handleOverflow, Widget.width])
      (by norm_num [Masonry.handleColumnSelection, Masonry.heightBalanceScan,
        List.replicate])).1
    rw [h]

theorem Masonry.handleOverflow_ok_size_congr
    (s : OverflowStrategy) (cw : ℚ) (w w' w1 : Widget) (ih iw : ℚ)
    (hw : w.width = w'.width) (hh : w.height = w'.height)
    (hov : Masonry.handleOverflow s cw w ih iw = .ok w1) :
    Masonry.handleOverflow s cw w' ih iw = .ok ⟨w1.width, w1.height, w'.geometry⟩ := by
  obtain ⟨a, b, g⟩ := w
  obtain ⟨a', b', g'⟩ := w'
  simp only [Widget.width, Widget.height] at hw hh
  subst hw hh
  by_cases hne : a = cw
  · simp [Masonry.handleOverflow, hne] at hov ⊢
    subst hov
    exact ⟨rfl, rfl⟩
  · cases s <;>
      simp [Masonry.handleOverflow, hne, Widget.setFixedSize, Widget.setFixedWidth] at hov ⊢
    · subst hov; exact ⟨rfl, rfl⟩
    · by_cases hiw : iw = 0
      · simp [hiw] at hov
      · simp [hiw] at hov ⊢
        subst hov; exact ⟨rfl, rfl⟩
    · subst hov; exact ⟨rfl, rfl⟩

theorem Masonry.handleColumnSelection_rand_irrel
    (vE : VerticalExpansionStrategy) (cc a b : ℤ) (idx : ℕ) (hs : List ℚ)
    (h : vE ≠ .RandomInsert) :
    Masonry.handleColumnSelection vE cc a idx hs =
      Masonry.handleColumnSelection vE cc b idx hs := by
  cases vE <;> simp_all [Masonry.handleColumnSelection]

theorem QMasonryFlowLayout.flowPosition_size_shift
    (hA : HorizontalAdaptationStrategy) (cw : ℚ) (cc : ℤ) (rectW : ℚ)
    (m : Margins) (sx sy : ℚ) (tgt : ℤ) (hs : List ℚ) (iw ih : ℚ)
    (w1 w1' : Widget) (ra : ℚ)
    (hw : w1.width = w1'.width) (hh : w1.height = w1'.height) :
    QMasonryFlowLayout.handlePosition hA cw cc rectW m sx sy tgt hs iw ih w1' ra =
      Except.map (fun p => (p.1, p.2.1, ⟨p.2.2.width, p.2.2.height, w1'.geometry⟩))
        (QMasonryFlowLayout.handlePosition hA cw cc rectW m sx sy tgt hs iw ih w1 ra) := by
  obtain ⟨a, b, g⟩ := w1
  obtain ⟨a', b', g'⟩ := w1'
  simp only [Widget.width, Widget.height] at hw hh
  subst hw hh
  cases hA <;>
    simp only [QMasonryFlowLayout.handlePosition]
  · cases hg : pyGet hs tgt <;>
      simp [hg, Except.map, Except.instMonad, Except.bind]
    cases hset : pySet hs tgt (_ + (ih + sy)) <;>
      simp [hset, Except.map, Except.instMonad, Except.bind]
  · by_cases hcc : cc = 0
    · simp [hcc, Except.map]
    · simp only [if_neg hcc]
      cases hg : pyGet hs tgt <;>
        simp [hg, Except.map, Except.instMonad, Except.bind]
      cases hset : pySet hs tgt (_ + (ih + sy)) <;>
        simp [hset, Except.map, Except.instMonad, Except.bind]
  · by_cases hcc : cc = 0
    · simp [hcc, Except.map]
    · simp only [if_neg hcc]
      cases hg : pyGet hs tgt <;>
        simp [hg, Except.map, Except.instMonad, Except.bind, Widget.setFixedSize]
      cases hset : pySet hs tgt _ <;>
        simp [hset, Except.map, Except.instMonad, Except.bind, Widget.setFixedSize]
  · simp [Except.map]

theorem QMasonryBoxLayout.boxPosition_size_shift
    (hA : HorizontalAdaptationStrategy) (cw : ℚ)
    (m : Margins) (sx sy : ℚ) (tgt : ℤ) (hs : List ℚ) (iw ih : ℚ)
    (w1 w1' : Widget) (ra : ℚ)
    (hw : w1.width = w1'.width) (hh : w1.height = w1'.height) :
    QMasonryBoxLayout.handlePosition hA cw m sx sy tgt hs iw ih w1' ra =
      Except.map (fun p => (p.1, p.2.1, ⟨p.2.2.width, p.2.2.height, w1'.geometry⟩))
        (QMasonryBoxLayout.handlePosition hA cw m sx sy tgt hs iw ih w1 ra) := by
  obtain ⟨a, b, g⟩ := w1
  obtain ⟨a', b', g'⟩ := w1'
  simp only [Widget.width, Widget.height] at hw hh
  subst hw hh
  cases hA <;>
    simp only [QMasonryBoxLayout.handlePosition]
  · cases hg : pyGet hs tgt <;>
      simp [hg, Except.map, Except.instMonad, Except.bind]
    cases hset : pySet hs tgt (_ + (ih + sy)) <;>
      simp [hset, Except.map, Except.instMonad, Except.bind]
  · cases hg : pyGet hs tgt <;>
      simp [hg, Except.map, Except.instMonad, Except.bind]
    cases hset : pySet hs tgt (_ + (ih + sy)) <;>
      simp [hset, Except.map, Except.instMonad, Except.bind]
  · cases hg : pyGet hs tgt <;>
      simp [hg, Except.map, Except.instMonad, Except.bind, Widget.setFixedSize]
    cases hset : pySet hs tgt _ <;>
      simp [hset, Except.map, Except.instMonad, Except.bind, Widget.setFixedSize]
  · simp [Except.map]

theorem QMasonryFlowLayout.flowStep_size_congr
    (st : QMasonryFlowLayout) (rectW : ℚ) (rand rand' : ℕ → ℤ)
    (hvr : st.verticalExpansionStrategy ≠ .RandomInsert)
    (idx : ℕ) (r : ℚ) (w w' : Widget) (heights : List ℚ)
    (hw : w.width = w'.width) (hh : w.height = w'.height)
    (v : Widget × List ℚ)
    (hstep : st.layoutStep rectW rand idx r w heights = .inl v) :
    st.layoutStep rectW rand' idx r w' heights = .inl v := by
  cases hov : Masonry.handleOverflow st.overflowStrategy st.columnWidth w w.height w.width with
  | error msg =>
    simp only [QMasonryFlowLayout.layoutStep, hov] at hstep
    exact Sum.noConfusion hstep
  | ok w1 =>
    have hov' := Masonry.handleOverflow_ok_size_congr st.overflowStrategy st.columnWidth
      w w' w1 w.height w.width hw hh hov
    rw [hw, hh] at hov'
    cases hsel : Masonry.handleColumnSelection st.verticalExpansionStrategy st.columnCount
        (rand idx) idx heights with
    | error msg =>
      simp only [QMasonryFlowLayout.layoutStep, hov, hsel] at hstep
      exact Sum.noConfusion hstep
    | ok tgt =>
      have hsel' : Masonry.handleColumnSelection st.verticalExpansionStrategy st.columnCount
          (rand' idx) idx heights = .ok tgt := by
        rw [Masonry.handleColumnSelection_rand_irrel st.verticalExpansionStrategy
          st.columnCount (rand' idx) (rand idx) idx heights hvr, hsel]
      cases hpos : QMasonryFlowLayout.handlePosition st.horizontalAdaptationStrategy
          st.columnWidth st.columnCount rectW st.contentsMargins st.horizontalSpacing
          st.verticalSpacing tgt heights w.width w.height w1 r with
      | error msg =>
        simp only [QMasonryFlowLayout.layoutStep, hov, hsel, hpos] at hstep
        exact Sum.noConfusion hstep
      | ok out =>
        obtain ⟨rect, h2, w2⟩ := out
        have hpos' := QMasonryFlowLayout.flowPosition_size_shift
          st.horizontalAdaptationStrategy st.columnWidth st.columnCount rectW
          st.contentsMargins st.horizontalSpacing st.verticalSpacing tgt heights
          w.width w.height w1 ⟨w1.width, w1.height, w'.geometry⟩ r rfl rfl
        rw [hpos] at hpos'
        rw [hw, hh] at hpos'
        simp only [Except.map] at hpos'
        simp only [QMasonryFlowLayout.layoutStep, hov, hsel, hpos] at hstep
        simp only [QMasonryFlowLayout.layoutStep, hov', hsel', hpos']
        rw [← hstep]
        simp [Widget.setGeometry]

theorem QMasonryBoxLayout.boxStep_size_congr
    (st : QMasonryBoxLayout) (rand rand' : ℕ → ℤ)
    (hvr : st.verticalExpansionStrategy ≠ .RandomInsert)
    (idx : ℕ) (r : ℚ) (w w' : Widget) (heights : List ℚ)
    (hw : w.width = w'.width) (hh : w.height = w'.height)
    (v : Widget × List ℚ)
    (hstep : st.layoutStep rand idx r w heights = .inl v) :
    st.layoutStep rand' idx r w' heights = .inl v := by
  cases hov : Masonry.handleOverflow st.overflowStrategy st.columnWidth w w.height w.width with
  | error msg =>
    simp only [QMasonryBoxLayout.layoutStep, hov] at hstep
    exact Sum.noConfusion hstep
  | ok w1 =>
    have hov' := Masonry.handleOverflow_ok_size_congr st.overflowStrategy st.columnWidth
      w w' w1 w.height w.width hw hh hov
    rw [hw, hh] at hov'
    cases hsel : Masonry.handleColumnSelection st.verticalExpansionStrategy st.columnCount
        (rand idx) idx heights with
    | error msg =>
      simp only [QMasonryBoxLayout.layoutStep, hov, hsel] at hstep
      exact Sum.noConfusion hstep
    | ok tgt =>
      have hsel' : Masonry.handleColumnSelection st.verticalExpansionStrategy st.columnCount
          (rand' idx) idx heights = .ok tgt := by
        rw [Masonry.handleColumnSelection_rand_irrel st.verticalExpansionStrategy
          st.columnCount (rand' idx) (rand idx) idx heights hvr, hsel]
      cases hpos : QMasonryBoxLayout.handlePosition st.horizontalAdaptationStrategy
          st.columnWidth st.contentsMargins st.horizontalSpacing
          st.verticalSpacing tgt heights w.width w.height w1 r with
      | error msg =>
        simp only [QMasonryBoxLayout.layoutStep, hov, hsel, hpos] at hstep
        exact Sum.noConfusion hstep
      | ok out =>
        obtain ⟨rect, h2, w2⟩ := out
        have hpos' := QMasonryBoxLayout.boxPosition_size_shift
          st.horizontalAdaptationStrategy st.columnWidth
          st.contentsMargins st.horizontalSpacing st.verticalSpacing tgt heights
          w.width w.height w1 ⟨w1.width, w1.height, w'.geometry⟩ r rfl rfl
        rw [hpos] at hpos'
        rw [hw, hh] at hpos'
        simp only [Except.map] at hpos'
        simp only [QMasonryBoxLayout.layoutStep, hov, hsel, hpos] at hstep
        simp only [QMasonryBoxLayout.layoutStep, hov', hsel', hpos']
        rw [← hstep]
        simp [Widget.setGeometry]

theorem Masonry.layoutLoop_widgets_length
    (step : ℕ → ℚ → Widget → List ℚ → (Widget × List ℚ) ⊕ (String × Widget)) :
    ∀ (prs : List (ℚ × Widget)) (idx : ℕ) (heights : List ℚ),
      (Masonry.layoutLoop step idx prs heights).widgets.length = prs.length := by
  intro prs
  induction prs with
  | nil => intro idx heights; rfl
  | cons p rest ih =>
    intro idx heights
    obtain ⟨r, w⟩ := p
    simp only [Masonry.layoutLoop]
    cases hs : step idx r w heights with
    | inl v => simp [ih]
    | inr e => simp

theorem Masonry.zip_map_snd_congr {α β γ : Type} (f : β → γ) :
    ∀ (a : List α) (b b' : List β), b.map f = b'.map f →
      (a.zip b).map (fun p => (p.1, f p.2)) = (a.zip b').map (fun p => (p.1, f p.2)) := by
  intro a
  induction a with
  | nil => intro b b' _; simp
  | cons x a ih =>
    intro b b' hb
    cases b with
    | nil =>
      cases b' with
      | nil => rfl
      | cons y' b' => simp at hb
    | cons y b =>
      cases b' with
      | nil => simp at hb
      | cons y' b' =>
        simp only [List.map_cons, List.cons.injEq] at hb
        simp only [List.zip_cons_cons, List.map_cons, List.cons.injEq]
        exact ⟨by simp [hb.1], ih b b' hb.2⟩

theorem Masonry.layoutLoop_size_congr
    (step step' : ℕ → ℚ → Widget → List ℚ → (Widget × List ℚ) ⊕ (String × Widget))
    (hstep : ∀ (idx : ℕ) (r : ℚ) (w w' : Widget) (heights : List ℚ),
      w.width = w'.width → w.height = w'.height → ∀ v,
      step idx r w heights = .inl v → step' idx r w' heights = .inl v) :
    ∀ (prs prs' : List (ℚ × Widget)) (idx : ℕ) (heights : List ℚ),
      prs.map (fun p => (p.1, p.2.size)) = prs'.map (fun p => (p.1, p.2.size)) →
      (Masonry.layoutLoop step idx prs heights).fault = none →
      Masonry.layoutLoop step' idx prs' heights = Masonry.layoutLoop step idx prs heights := by
  intro prs
  induction prs with
  | nil =>
    intro prs' idx heights hm _
    cases prs' with
    | nil => rfl
    | cons p' prs' => simp at hm
  | cons p prs ih =>
    intro prs' idx heights hm hf
    obtain ⟨r, w⟩ := p
    cases prs' with
    | nil => simp at hm
    | cons p' prs' =>
      obtain ⟨r', w'⟩ := p'
      simp only [List.map_cons, List.cons.injEq, Prod.mk.injEq] at hm
      obtain ⟨⟨hr, hsz⟩, hrest⟩ := hm
      subst hr
      simp only [Widget.size, Prod.mk.injEq] at hsz
      cases hs : step idx r w heights with
      | inr e =>
        simp only [Masonry.layoutLoop, hs] at hf
        exact Option.noConfusion hf
      | inl v =>
        obtain ⟨w1, h1⟩ := v
        simp only [Masonry.layoutLoop, hs] at hf ⊢
        have hs' := hstep idx r w w' heights hsz.1 hsz.2 (w1, h1) hs
        simp only [hs']
        rw [ih prs' (idx + 1) h1 hrest hf]


theorem QMasonryFlowLayout.flowStep_config_congr
    (stA stB : QMasonryFlowLayout) (rectW : ℚ) (rand : ℕ → ℤ)
    (h1 : stA.horizontalAdaptationStrategy = stB.horizontalAdaptationStrategy)
    (h2 : stA.verticalExpansionStrategy = stB.verticalExpansionStrategy)
    (h3 : stA.overflowStrategy = stB.overflowStrategy)
    (h4 : stA.columnCount = stB.columnCount)
    (h5 : stA.columnWidth = stB.columnWidth)
    (h6 : stA.horizontalSpacing = stB.horizontalSpacing)
    (h7 : stA.verticalSpacing = stB.verticalSpacing)
    (h8 : stA.contentsMargins = stB.contentsMargins) :
    stA.layoutStep rectW rand = stB.layoutStep rectW rand := by
  funext idx r w heights
  simp only [QMasonryFlowLayout.layoutStep, h1, h2, h3, h4, h5, h6, h7, h8]

theorem flow_fixpoint
    (st : QMasonryFlowLayout) (rectW : ℚ) (rand rand' : ℕ → ℤ)
    (st₁ : QMasonryFlowLayout) (sz : ℚ × ℚ)
    (hvr : st.verticalExpansionStrategy ≠ .RandomInsert)
    (h1 : st.doLayout rectW rand = .ok st₁ sz)
    (hsz : st₁.items.map Widget.size = st.items.map Widget.size) :
    st₁.doLayout rectW rand' = .ok st₁ sz := by
  cases hcalc : QMasonryFlowLayout.calculateColumnCount rectW st.contentsMargins
      st.horizontalSpacing st.columnWidth with
  | error msg =>
    simp only [QMasonryFlowLayout.doLayout, hcalc] at h1
    exact Masonry.PassOut.noConfusion h1
  | ok cc =>
    simp only [QMasonryFlowLayout.doLayout, hcalc] at h1
    cases hout : Masonry.layoutLoop
        (QMasonryFlowLayout.layoutStep { st with columnCount := cc } rectW rand) 0
        (st.itemRatios.zip st.items) (List.replicate cc.toNat 0) with
    | mk ws hs fl =>
      rw [hout] at h1
      cases fl with
      | some msg => exact Masonry.PassOut.noConfusion h1
      | none =>
        cases hs with
        | nil => exact Masonry.PassOut.noConfusion h1
        | cons hd tl =>
          simp only [Masonry.PassOut.ok.injEq] at h1
          obtain ⟨hst, hszeq⟩ := h1
          subst hszeq
          have hP4 : st₁.columnCount = cc := by rw [← hst]
          have hP5 : st₁.columnWidth = st.columnWidth := by rw [← hst]
          have hP6 : st₁.horizontalSpacing = st.horizontalSpacing := by rw [← hst]
          have hP8 : st₁.contentsMargins = st.contentsMargins := by rw [← hst]
          have hP9 : st₁.items =
              ws ++ st.items.drop (st.itemRatios.length ⊓ st.items.length) := by rw [← hst]
          have hP10 : st₁.itemRatios = st.itemRatios := by rw [← hst]
          have hlen := Masonry.layoutLoop_widgets_length
            (QMasonryFlowLayout.layoutStep { st with columnCount := cc } rectW rand)
            (st.itemRatios.zip st.items) 0 (List.replicate cc.toNat 0)
          rw [hout] at hlen
          simp only [List.length_zip] at hlen
          have hXlen : st₁.items.length = st.items.length := by
            have := congrArg List.length hsz
            simpa using this
          have hcalc' : QMasonryFlowLayout.calculateColumnCount rectW st₁.contentsMargins
              st₁.horizontalSpacing st₁.columnWidth = .ok cc := by
            rw [hP8, hP6, hP5]
            exact hcalc
          have hstepeq := QMasonryFlowLayout.flowStep_config_congr
            { st₁ with columnCount := cc } { st with columnCount := cc } rectW rand'
            (by simpa using by rw [← hst]) (by simpa using by rw [← hst])
            (by simpa using by rw [← hst]) (by simp)
            (by simpa using hP5) (by simpa using hP6)
            (by simpa using by rw [← hst]) (by simpa using hP8)
          have hfault1 : (Masonry.layoutLoop
              (QMasonryFlowLayout.layoutStep { st with columnCount := cc } rectW rand) 0
              (st.itemRatios.zip st.items) (List.replicate cc.toNat 0)).fault = none := by
            rw [hout]
          have hm2 : (st.itemRatios.zip st.items).map (fun p => (p.1, p.2.size)) =
              (st₁.itemRatios.zip st₁.items).map (fun p => (p.1, p.2.size)) := by
            rw [hP10]
            exact Masonry.zip_map_snd_congr Widget.size st.itemRatios st.items st₁.items
              hsz.symm
          have hloop := Masonry.layoutLoop_size_congr
            (QMasonryFlowLayout.layoutStep { st with columnCount := cc } rectW rand)
            (QMasonryFlowLayout.layoutStep { st with columnCount := cc } rectW rand')
            (fun idx r w w' heights hw hh v hs =>
              QMasonryFlowLayout.flowStep_size_congr { st with columnCount := cc }
                rectW rand rand' hvr idx r w w' heights hw hh v hs)
            (st.itemRatios.zip st.items) (st₁.itemRatios.zip st₁.items) 0
            (List.replicate cc.toNat 0) hm2 hfault1
          have hm' : st₁.itemRatios.length ⊓ st₁.items.length = ws.length := by
            rw [hP10, hXlen]
            exact hlen.symm
          have hdrop : st₁.items.drop (st₁.itemRatios.length ⊓ st₁.items.length) =
              st.items.drop (st.itemRatios.length ⊓ st.items.length) := by
            rw [hm', hP9]
            exact List.drop_left ws _
          have hitems' : ws ++ st₁.items.drop (st₁.itemRatios.length ⊓ st₁.items.length) =
              st₁.items := by
            rw [hdrop, ← hP9]
          have hfinal : ({ st₁ with
              columnCount := cc,
              items := ws ++ st₁.items.drop (st₁.itemRatios.length ⊓ st₁.items.length) } :
              QMasonryFlowLayout) = st₁ := by
            rw [hitems', ← hP4]
          simp only [QMasonryFlowLayout.doLayout, hcalc', hstepeq, hloop, hout]
          rw [hfinal]

theorem QMasonryBoxLayout.boxStep_config_congr
    (stA stB : QMasonryBoxLayout) (rand : ℕ → ℤ)
    (h1 : stA.horizontalAdaptationStrategy = stB.horizontalAdaptationStrategy)
    (h2 : stA.verticalExpansionStrategy = stB.verticalExpansionStrategy)
    (h3 : stA.overflowStrategy = stB.overflowStrategy)
    (h4 : stA.columnCount = stB.columnCount)
    (h5 : stA.columnWidth = stB.columnWidth)
    (h6 : stA.horizontalSpacing = stB.horizontalSpacing)
    (h7 : stA.verticalSpacing = stB.verticalSpacing)
    (h8 : stA.contentsMargins = stB.contentsMargins) :
    stA.layoutStep rand = stB.layoutStep rand := by
  funext idx r w heights
  simp only [QMasonryBoxLayout.layoutStep, h1, h2, h3, h4, h5, h6, h7, h8]

theorem box_fixpoint
    (st : QMasonryBoxLayout) (rectW : ℚ) (rand rand' : ℕ → ℤ)
    (st₁ : QMasonryBoxLayout) (sz : ℚ × ℚ)
    (hvr : st.verticalExpansionStrategy ≠ .RandomInsert)
    (h1 : st.doLayout rectW rand = .ok st₁ sz)
    (hsz : st₁.items.map Widget.size = st.items.map Widget.size) :
    st₁.doLayout rectW rand' = .ok st₁ sz := by
  cases hcalc : QMasonryBoxLayout.calculateColumnWidth rectW st.contentsMargins
      st.horizontalSpacing st.columnCount with
  | error msg =>
    simp only [QMasonryBoxLayout.doLayout, hcalc] at h1
    exact Masonry.PassOut.noConfusion h1
  | ok cw =>
    simp only [QMasonryBoxLayout.doLayout, hcalc] at h1
    cases hout : Masonry.layoutLoop
        (QMasonryBoxLayout.layoutStep { st with columnWidth := cw } rand) 0
        (st.itemRatios.zip st.items) (List.replicate st.columnCount.toNat 0) with
    | mk ws hs fl =>
      rw [hout] at h1
      cases fl with
      | some msg => exact Masonry.PassOut.noConfusion h1
      | none =>
        cases hs with
        | nil => exact Masonry.PassOut.noConfusion h1
        | cons hd tl =>
          simp only [Masonry.PassOut.ok.injEq] at h1
          obtain ⟨hst, hszeq⟩ := h1
          subst hszeq
          have hP4 : st₁.columnWidth = cw := by rw [← hst]
          have hP5 : st₁.columnCount = st.columnCount := by rw [← hst]
          have hP6 : st₁.horizontalSpacing = st.horizontalSpacing := by rw [← hst]
          have hP8 : st₁.contentsMargins = st.contentsMargins := by rw [← hst]
          have hP9 : st₁.items =
              ws ++ st.items.drop (st.itemRatios.length ⊓ st.items.length) := by rw [← hst]
          have hP10 : st₁.itemRatios = st.itemRatios := by rw [← hst]
          have hlen := Masonry.layoutLoop_widgets_length
            (QMasonryBoxLayout.layoutStep { st with columnWidth := cw } rand)
            (st.itemRatios.zip st.items) 0 (List.replicate st.columnCount.toNat 0)
          rw [hout] at hlen
          simp only [List.length_zip] at hlen
          have hXlen : st₁.items.length = st.items.length := by
            have := congrArg List.length hsz
            simpa using this
          have hcalc' : QMasonryBoxLayout.calculateColumnWidth rectW st₁.contentsMargins
              st₁.horizontalSpacing st₁.columnCount = .ok cw := by
            rw [hP8, hP6, hP5]
            exact hcalc
          have hstepeq := QMasonryBoxLayout.boxStep_config_congr
            { st₁ with columnWidth := cw } { st with columnWidth := cw } rand'
            (by simpa using by rw [← hst]) (by simpa using by rw [← hst])
            (by simpa using by rw [← hst]) (by simpa using hP5)
            (by simp) (by simpa using hP6)
            (by simpa using by rw [← hst]) (by simpa using hP8)
          have hfault1 : (Masonry.layoutLoop
              (QMasonryBoxLayout.layoutStep { st with columnWidth := cw } rand) 0
              (st.itemRatios.zip st.items) (List.replicate st.columnCount.toNat 0)).fault
              = none := by
            rw [hout]
          have hm2 : (st.itemRatios.zip st.items).map (fun p => (p.1, p.2.size)) =
              (st₁.itemRatios.zip st₁.items).map (fun p => (p.1, p.2.size)) := by
            rw [hP10]
            exact Masonry.zip_map_snd_congr Widget.size st.itemRatios st.items st₁.items
              hsz.symm
          have hloop := Masonry.layoutLoop_size_congr
            (QMasonryBoxLayout.layoutStep { st with columnWidth := cw } rand)
            (QMasonryBoxLayout.layoutStep { st with columnWidth := cw } rand')
            (fun idx r w w' heights hw hh v hs =>
              QMasonryBoxLayout.boxStep_size_congr { st with columnWidth := cw }
                rand rand' hvr idx r w w' heights hw hh v hs)
            (st.itemRatios.zip st.items) (st₁.itemRatios.zip st₁.items) 0
            (List.replicate st.columnCount.toNat 0) hm2 hfault1
          have hm' : st₁.itemRatios.length ⊓ st₁.items.length = ws.length := by
            rw [hP10, hXlen]
            exact hlen.symm
          have hdrop : st₁.items.drop (st₁.itemRatios.length ⊓ st₁.items.length) =
              st.items.drop (st.itemRatios.length ⊓ st.items.length) := by
            rw [hm', hP9]
            exact List.drop_left ws _
          have hitems' : ws ++ st₁.items.drop (st₁.itemRatios.length ⊓ st₁.items.length) =
              st₁.items := by
            rw [hdrop, ← hP9]
          have hfinal : ({ st₁ with
              columnWidth := cw,
              items := ws ++ st₁.items.drop (st₁.itemRatios.length ⊓ st₁.items.length) } :
              QMasonryBoxLayout) = st₁ := by
            rw [hitems', ← hP4]
          have hrep : List.replicate st₁.columnCount.toNat (0 : ℚ) =
              List.replicate st.columnCount.toNat 0 := by
            rw [hP5]
          simp only [QMasonryBoxLayout.doLayout, hcalc', hstepeq, hrep, hloop, hout]
          rw [hfinal]

/-- C5 counterexample.  With the flow engine's `AutoZoom` adaptation (the
repository's default-style configuration) and an unchanged 200-wide region,
the first pass places a 100×50 item at `(50, 0, 100, 50)` while rescaling the
widget to 200×100; the immediately following pass, on the same rectangle and
item set, places it at `(0, 0, 200, 100)`: two consecutive passes produce
different geometries. -/
theorem second_pass_geometry_differs_after_rescale :
    QMasonryFlowLayout.doLayout
      { horizontalAdaptationStrategy := .AutoZoom
        verticalExpansionStrategy := .HeightBalance
        overflowStrategy := .Ignore
        columnCount := 0
        columnWidth := 200
        horizontalSpacing := 0
        verticalSpacing := 0
        contentsMargins := ⟨0, 0, 0, 0⟩
        items := [⟨100, 50, none⟩]
        itemRatios := [1/2] } 200 (fun _ => 0) =
    Masonry.PassOut.ok
      { horizontalAdaptationStrategy := .AutoZoom
        verticalExpansionStrategy := .HeightBalance
        overflowStrategy := .Ignore
        columnCount := 1
        columnWidth := 200
        horizontalSpacing := 0
        verticalSpacing := 0
        contentsMargins := ⟨0, 0, 0, 0⟩
        items := [⟨200, 100, some ⟨50, 0, 100, 50⟩⟩]
        itemRatios := [1/2] } (200, 100) ∧
    QMasonryFlowLayout.doLayout
      { horizontalAdaptationStrategy := .AutoZoom
        verticalExpansionStrategy := .HeightBalance
        overflowStrategy := .Ignore
        columnCount := 1
        columnWidth := 200
        horizontalSpacing := 0
        verticalSpacing := 0
        contentsMargins := ⟨0, 0, 0, 0⟩
        items := [⟨200, 100, some ⟨50, 0, 100, 50⟩⟩]
        itemRatios := [1/2] } 200 (fun _ => 0) =
    Masonry.PassOut.ok
      { horizontalAdaptationStrategy := .AutoZoom
        verticalExpansionStrategy := .HeightBalance
        overflowStrategy := .Ignore
        columnCount := 1
        columnWidth := 200
        horizontalSpacing := 0
        verticalSpacing := 0
        contentsMargins := ⟨0, 0, 0, 0⟩
        items := [⟨200, 100, some ⟨0, 0, 200, 100⟩⟩]
        itemRatios := [1/2] } (200, 100) ∧
    (⟨50, 0, 100, 50⟩ : Rect) ≠ ⟨0, 0, 200, 100⟩ := by
  refine ⟨?_, ?_, by norm_num⟩ <;>
    norm_num [QMasonryFlowLayout.doLayout, QMasonryFlowLayout.calculateColumnCount,
      QMasonryFlowLayout.layoutStep, QMasonryFlowLayout.handlePosition,
      Masonry.layoutLoop, Masonry.handleOverflow, Masonry.handleColumnSelection,
      Masonry.heightBalanceScan, pyGet, pySet, pyIndex, Widget.setGeometry,
      Widget.setFixedSize, Except.instMonad, Except.bind, List.zip_cons_cons]

/-- C5 (amended).  For either engine, under a deterministic vertical-expansion
policy (not `RandomInsert`, so the random oracle is immaterial and may even
differ between passes), a completed pass whose output leaves every item's
widget size unchanged is a fixpoint: the next pass on the same rectangle
reproduces the same geometries, the same state and the same occupied size.
In general the first pass may rescale widgets (overflow `AutoZoom`/`AutoCrop`
or position `AutoZoom`), and then — as the counterexample shows — the second
pass's geometries differ from the first's. -/
theorem pass_fixpoint_when_sizes_stable :
    (∀ (st : QMasonryFlowLayout) (rectW : ℚ) (rand rand' : ℕ → ℤ)
        (st₁ : QMasonryFlowLayout) (sz : ℚ × ℚ),
      st.verticalExpansionStrategy ≠ .RandomInsert →
      st.doLayout rectW rand = .ok st₁ sz →
      st₁.items.map Widget.size = st.items.map Widget.size →
      st₁.doLayout rectW rand' = .ok st₁ sz) ∧
    (∀ (st : QMasonryBoxLayout) (rectW : ℚ) (rand rand' : ℕ → ℤ)
        (st₁ : QMasonryBoxLayout) (sz : ℚ × ℚ),
      st.verticalExpansionStrategy ≠ .RandomInsert →
      st.doLayout rectW rand = .ok st₁ sz →
      st₁.items.map Widget.size = st.items.map Widget.size →
      st₁.doLayout rectW rand' = .ok st₁ sz) :=
  ⟨fun st rectW rand rand' st₁ sz hvr h1 hsz =>
      flow_fixpoint st rectW rand rand' st₁ sz hvr h1 hsz,
    fun st rectW rand rand' st₁ sz hvr h1 hsz =>
      box_fixpoint st rectW rand rand' st₁ sz hvr h1 hsz⟩

/-- C5 witness.  A flow state whose item already matches the column width
(`NoAdaption`/`Ignore`, so the first pass only wrote geometry) is reproduced
exactly by the next pass, even under a different random oracle; likewise for
the box engine. -/
theorem pass_fixpoint_when_sizes_stable_witness :
    QMasonryFlowLayout.doLayout
      { horizontalAdaptationStrategy := .NoAdaption
        verticalExpansionStrategy := .HeightBalance
        overflowStrategy := .Ignore
        columnCount := 1
        columnWidth := 200
        horizontalSpacing := 0
        verticalSpacing := 0
        contentsMargins := ⟨0, 0, 0, 0⟩
        items := [⟨200, 100, some ⟨0, 0, 200, 100⟩⟩]
        itemRatios := [1/2] } 200 (fun _ => 1) =
    Masonry.PassOut.ok
      { horizontalAdaptationStrategy := .NoAdaption
        verticalExpansionStrategy := .HeightBalance
        overflowStrategy := .Ignore
        columnCount := 1
        columnWidth := 200
        horizontalSpacing := 0
        verticalSpacing := 0
        contentsMargins := ⟨0, 0, 0, 0⟩
        items := [⟨200, 100, some ⟨0, 0, 200, 100⟩⟩]
        itemRatios := [1/2] } (200, 100) ∧
    QMasonryBoxLayout.doLayout
      { horizontalAdaptationStrategy := .NoAdaption
        verticalExpansionStrategy := .HeightBalance
        overflowStrategy := .Ignore
        columnCount := 1
        columnWidth := 200
        horizontalSpacing := 0
        verticalSpacing := 0
        contentsMargins := ⟨0, 0, 0, 0⟩
        items := [⟨200, 100, some ⟨0, 0, 200, 100⟩⟩]
        itemRatios := [1/2] } 200 (fun _ => 1) =
    Masonry.PassOut.ok
      { horizontalAdaptationStrategy := .NoAdaption
        verticalExpansionStrategy := .HeightBalance
        overflowStrategy := .Ignore
        columnCount := 1
        columnWidth := 200
        horizontalSpacing := 0
        verticalSpacing := 0
        contentsMargins := ⟨0, 0, 0, 0⟩
        items := [⟨200, 100, some ⟨0, 0, 200, 100⟩⟩]
        itemRatios := [1/2] } (200, 100) := by
  constructor
  · exact pass_fixpoint_when_sizes_stable.1
      { horizontalAdaptationStrategy := .NoAdaption
        verticalExpansionStrategy := .HeightBalance
        overflowStrategy := .Ignore
        columnCount := 0
        columnWidth := 200
        horizontalSpacing := 0
        verticalSpacing := 0
        contentsMargins := ⟨0, 0, 0, 0⟩
        items := [⟨200, 100, none⟩]
        itemRatios := [1/2] } 200 (fun _ => 0) (fun _ => 1) _ _ (by simp)
      (by norm_num [QMasonryFlowLayout.doLayout, QMasonryFlowLayout.calculateColumnCount,
        QMasonryFlowLayout.layoutStep, QMasonryFlowLayout.handlePosition,
        Masonry.layoutLoop, Masonry.handleOverflow, Masonry.handleColumnSelection,
        Masonry.heightBalanceScan, pyGet, pySet, pyIndex, Widget.setGeometry,
        Widget.setFixedSize, Except.instMonad, Except.bind, List.zip_cons_cons])
      (by norm_num [Widget.size])
  · exact pass_fixpoint_when_sizes_stable.2
      { horizontalAdaptationStrategy := .NoAdaption
        verticalExpansionStrategy := .HeightBalance
        overflowStrategy := .Ignore
        columnCount := 1
        columnWidth := 0
        horizontalSpacing := 0
        verticalSpacing := 0
        contentsMargins := ⟨0, 0, 0, 0⟩
        items := [⟨200, 100, none⟩]
        itemRatios := [1/2] } 200 (fun _ => 0) (fun _ => 1) _ _ (by simp)
      (by norm_num [QMasonryBoxLayout.doLayout, QMasonryBoxLayout.calculateColumnWidth,
        QMasonryBoxLayout.layoutStep, QMasonryBoxLayout.handlePosition,
        Masonry.layoutLoop, Masonry.handleOverflow, Masonry.handleColumnSelection,
        Masonry.heightBalanceScan, pyGet, pySet, pyIndex, Widget.setGeometry,
        Widget.setFixedSize, Except.instMonad, Except.bind, List.zip_cons_cons])
      (by norm_num [Widget.size])
